import Mathlib

/-!
Verification of the GULAG keyboard-layout optimizer's utility module
(src/util.c) against its natural-language specification.

The constants ROW, COL, LANG_LENGTH, DIM1/2/3 and the statistic counts
MONO_END .. META_END live in global.h, which is not part of the sources
given here; all definitions are therefore parameterised over them.  Per
the spec, DIM1 = ROW*COL, DIM2 = DIM1^2, DIM3 = DIM1^3.

Scores and frequencies are C floats; they are embedded as exact rationals
(ℚ), except where a float division can have a zero denominator, in which
case the result is modelled as `Option ℚ` with `none` standing for the
non-real IEEE outcome (NaN / infinity).
-/

namespace Gulag

/-- DIM1 = ROW * COL (from global.h, per spec section 4.1). -/
def DIM1 (R C : ℕ) : ℕ := R * C

/-- DIM2 = DIM1 * DIM1. -/
def DIM2 (R C : ℕ) : ℕ := DIM1 R C * DIM1 R C

/-- DIM3 = DIM1 * DIM1 * DIM1. -/
def DIM3 (R C : ℕ) : ℕ := DIM1 R C * DIM1 R C * DIM1 R C

/-- util.c flat_mono: `*i = row0 * COL + col0`. -/
def flat_mono (C row0 col0 : ℕ) : ℕ := row0 * C + col0

/-- util.c unflat_mono: `row0 = i / COL; col0 = i % COL`. -/
def unflat_mono (C i : ℕ) : ℕ × ℕ := (i / C, i % C)

/-- util.c flat_bi: `*i = (row0*COL+col0)*DIM1 + (row1*COL+col1)`. -/
def flat_bi (R C row0 col0 row1 col1 : ℕ) : ℕ :=
  (row0 * C + col0) * DIM1 R C + (row1 * C + col1)

/-- util.c unflat_bi: `row1 = (i%DIM1)/COL; col1 = i%COL; i /= DIM1;
row0 = i/COL; col0 = i%COL`.  Result tuple is (row0, col0, row1, col1). -/
def unflat_bi (R C i : ℕ) : ℕ × ℕ × ℕ × ℕ :=
  (i / DIM1 R C / C, i / DIM1 R C % C, i % DIM1 R C / C, i % C)

/-- util.c flat_tri. -/
def flat_tri (R C row0 col0 row1 col1 row2 col2 : ℕ) : ℕ :=
  (row0 * C + col0) * DIM2 R C +
  (row1 * C + col1) * DIM1 R C +
  (row2 * C + col2)

/-- util.c unflat_tri, peeling the least-significant key first, exactly as
the C loop of `%`/`/=` steps does. -/
def unflat_tri (R C i : ℕ) : ℕ × ℕ × ℕ × ℕ × ℕ × ℕ :=
  (i / DIM1 R C / DIM1 R C / C, i / DIM1 R C / DIM1 R C % C,
   i / DIM1 R C % DIM1 R C / C, i / DIM1 R C % C,
   i % DIM1 R C / C, i % C)

/-- util.c flat_quad. -/
def flat_quad (R C row0 col0 row1 col1 row2 col2 row3 col3 : ℕ) : ℕ :=
  (row0 * C + col0) * DIM3 R C +
  (row1 * C + col1) * DIM2 R C +
  (row2 * C + col2) * DIM1 R C +
  (row3 * C + col3)

/-- util.c unflat_quad. -/
def unflat_quad (R C i : ℕ) : ℕ × ℕ × ℕ × ℕ × ℕ × ℕ × ℕ × ℕ :=
  (i / DIM1 R C / DIM1 R C / DIM1 R C / C,
   i / DIM1 R C / DIM1 R C / DIM1 R C % C,
   i / DIM1 R C / DIM1 R C % DIM1 R C / C,
   i / DIM1 R C / DIM1 R C % C,
   i / DIM1 R C % DIM1 R C / C,
   i / DIM1 R C % C,
   i % DIM1 R C / C, i % C)

/-- Modelled from the spec: the skip-gram key-coordinate index carries a
leading skip-distance digit (1..9) before the two key coordinates
(spec section 4.1); src/ contains no skip-gram flatten over key
coordinates, only the character-index variant index_skip. -/
def flat_skip (R C d row0 col0 row1 col1 : ℕ) : ℕ :=
  d * DIM2 R C + (row0 * C + col0) * DIM1 R C + (row1 * C + col1)

/-- Modelled from the spec: decoder for flat_skip; src/ contains no
skip-gram unflatten, so this inverts the mixed-radix encoding the spec
describes, most-significant (skip distance) digit first. -/
def unflat_skip (R C i : ℕ) : ℕ × ℕ × ℕ × ℕ × ℕ :=
  (i / DIM2 R C, unflat_bi R C (i % DIM2 R C))

lemma key_lt {R C : ℕ} (r c : ℕ) (hr : r < R) (hc : c < C) :
    r * C + c < R * C := by
  calc r * C + c < r * C + C := by omega
    _ = (r + 1) * C := by ring
    _ ≤ R * C := Nat.mul_le_mul_right C hr

lemma peel_mod (D x y : ℕ) (hy : y < D) : (x * D + y) % D = y := by
  rw [Nat.mul_comm, Nat.mul_add_mod, Nat.mod_eq_of_lt hy]

lemma peel_div (D x y : ℕ) (hy : y < D) : (x * D + y) / D = x := by
  rw [Nat.mul_comm, Nat.mul_add_div (by omega), Nat.div_eq_of_lt hy,
    Nat.add_zero]

lemma peel_modC (R C x r c : ℕ) (hc : c < C) :
    (x * DIM1 R C + (r * C + c)) % C = c := by
  have h : x * DIM1 R C + (r * C + c) = (x * R + r) * C + c := by
    simp only [DIM1]; ring
  rw [h]; exact peel_mod C (x * R + r) c hc

/-- C2: for coordinates with rows in [0,ROW) and columns in [0,COL),
unflattening the flattened index returns the original tuple for every
arity 1..4 and for the skip-gram encoding at any skip distance 1..9. -/
theorem C2_flatten_unflatten_inverse (R C : ℕ)
    (r0 c0 r1 c1 r2 c2 r3 c3 d : ℕ)
    (hr0 : r0 < R) (hc0 : c0 < C) (hr1 : r1 < R) (hc1 : c1 < C)
    (hr2 : r2 < R) (hc2 : c2 < C) (hr3 : r3 < R) (hc3 : c3 < C)
    (hd1 : 1 ≤ d) (hd9 : d ≤ 9) :
    unflat_mono C (flat_mono C r0 c0) = (r0, c0) ∧
    unflat_bi R C (flat_bi R C r0 c0 r1 c1) = (r0, c0, r1, c1) ∧
    unflat_tri R C (flat_tri R C r0 c0 r1 c1 r2 c2) =
      (r0, c0, r1, c1, r2, c2) ∧
    unflat_quad R C (flat_quad R C r0 c0 r1 c1 r2 c2 r3 c3) =
      (r0, c0, r1, c1, r2, c2, r3, c3) ∧
    unflat_skip R C (flat_skip R C d r0 c0 r1 c1) =
      (d, r0, c0, r1, c1) := by
  have hp0 : r0 * C + c0 < DIM1 R C := key_lt r0 c0 hr0 hc0
  have hp1 : r1 * C + c1 < DIM1 R C := key_lt r1 c1 hr1 hc1
  have hp2 : r2 * C + c2 < DIM1 R C := key_lt r2 c2 hr2 hc2
  have hp3 : r3 * C + c3 < DIM1 R C := key_lt r3 c3 hr3 hc3
  refine ⟨?_, ?_, ?_, ?_, ?_⟩
  · simp [unflat_mono, flat_mono, peel_div C r0 c0 hc0,
      peel_mod C r0 c0 hc0]
  · have hb : flat_bi R C r0 c0 r1 c1 =
        (r0 * C + c0) * DIM1 R C + (r1 * C + c1) := rfl
    simp [unflat_bi, hb, peel_mod _ _ _ hp1, peel_div _ _ _ hp1,
      peel_modC R C _ _ _ hc1, peel_div C r0 c0 hc0,
      peel_mod C r0 c0 hc0, peel_mod C r1 c1 hc1, peel_div C r1 c1 hc1]
  · have ht : flat_tri R C r0 c0 r1 c1 r2 c2 =
        ((r0 * C + c0) * DIM1 R C + (r1 * C + c1)) * DIM1 R C +
          (r2 * C + c2) := by
      simp only [flat_tri, DIM1, DIM2]; ring
    simp [unflat_tri, ht, peel_mod _ _ _ hp2, peel_div _ _ _ hp2,
      peel_mod _ _ _ hp1, peel_div _ _ _ hp1,
      peel_modC R C _ _ _ hc2, peel_modC R C _ _ _ hc1,
      peel_div C r0 c0 hc0, peel_mod C r0 c0 hc0,
      peel_mod C r1 c1 hc1, peel_mod C r2 c2 hc2,
      peel_div C r1 c1 hc1, peel_div C r2 c2 hc2]
  · have hq : flat_quad R C r0 c0 r1 c1 r2 c2 r3 c3 =
        (((r0 * C + c0) * DIM1 R C + (r1 * C + c1)) * DIM1 R C +
          (r2 * C + c2)) * DIM1 R C + (r3 * C + c3) := by
      simp only [flat_quad, DIM1, DIM2, DIM3]; ring
    simp [unflat_quad, hq, peel_mod _ _ _ hp3, peel_div _ _ _ hp3,
      peel_mod _ _ _ hp2, peel_div _ _ _ hp2,
      peel_mod _ _ _ hp1, peel_div _ _ _ hp1,
      peel_modC R C _ _ _ hc3, peel_modC R C _ _ _ hc2,
      peel_modC R C _ _ _ hc1,
      peel_div C r0 c0 hc0, peel_mod C r0 c0 hc0,
      peel_mod C r1 c1 hc1, peel_mod C r2 c2 hc2,
      peel_mod C r3 c3 hc3, peel_div C r1 c1 hc1,
      peel_div C r2 c2 hc2, peel_div C r3 c3 hc3]
  · have hrest : (r0 * C + c0) * DIM1 R C + (r1 * C + c1) < DIM2 R C := by
      have := key_lt (r0 * C + c0) (r1 * C + c1) hp0 hp1
      simpa [DIM2] using this
    have hs : flat_skip R C d r0 c0 r1 c1 =
        d * DIM2 R C + ((r0 * C + c0) * DIM1 R C + (r1 * C + c1)) := by
      simp only [flat_skip]; ring
    have hmod : flat_skip R C d r0 c0 r1 c1 % DIM2 R C =
        (r0 * C + c0) * DIM1 R C + (r1 * C + c1) := by
      rw [hs]; exact peel_mod _ _ _ hrest
    have hdiv : flat_skip R C d r0 c0 r1 c1 / DIM2 R C = d := by
      rw [hs]; exact peel_div _ _ _ hrest
    have hb : unflat_bi R C ((r0 * C + c0) * DIM1 R C + (r1 * C + c1)) =
        (r0, c0, r1, c1) := by
      simp [unflat_bi, peel_mod _ _ _ hp1, peel_div _ _ _ hp1,
        peel_modC R C _ _ _ hc1, peel_div C r0 c0 hc0,
        peel_mod C r0 c0 hc0, peel_mod C r1 c1 hc1,
        peel_div C r1 c1 hc1]
    simp [unflat_skip, hmod, hdiv, hb]

/-- C2 witness: the round trip at ROW = 3, COL = 12, a concrete tuple. -/
theorem C2_flatten_unflatten_inverse_witness :
    unflat_mono 12 (flat_mono 12 2 7) = (2, 7) ∧
    unflat_bi 3 12 (flat_bi 3 12 2 7 0 11) = (2, 7, 0, 11) ∧
    unflat_tri 3 12 (flat_tri 3 12 2 7 0 11 1 5) = (2, 7, 0, 11, 1, 5) ∧
    unflat_quad 3 12 (flat_quad 3 12 2 7 0 11 1 5 2 0) =
      (2, 7, 0, 11, 1, 5, 2, 0) ∧
    unflat_skip 3 12 (flat_skip 3 12 9 2 7 0 11) = (9, 2, 7, 0, 11) :=
  C2_flatten_unflatten_inverse 3 12 2 7 0 11 1 5 2 0 9
    (by decide) (by decide) (by decide) (by decide) (by decide)
    (by decide) (by decide) (by decide) (by decide) (by decide)

/-!
Corpus normalization (util.c normalize_corpus).  Raw counts are long long
accumulators over arrays indexed by character identifiers below
LANG_LENGTH (the parameter L).  Each float table entry is an Option ℚ:
`some q` is the real value q, `none` the non-real IEEE outcome of a
division by zero (NaN / infinity).  The linear arrays start zeroed
(global / calloc storage), so an entry a branch does not write is some 0.
-/

/-- Raw corpus counts, indexed by character identifiers (and, for skip,
by the skip distance 1..9 first). -/
structure Corpus where
  mono : ℕ → ℕ
  bi : ℕ → ℕ → ℕ
  tri : ℕ → ℕ → ℕ → ℕ
  quad : ℕ → ℕ → ℕ → ℕ → ℕ
  skip : ℕ → ℕ → ℕ → ℕ

/-- normalize_corpus: total_mono accumulated over the L monogram counts. -/
def total_mono (L : ℕ) (c : Corpus) : ℕ :=
  ∑ i in Finset.range L, c.mono i

/-- normalize_corpus: total_bi. -/
def total_bi (L : ℕ) (c : Corpus) : ℕ :=
  ∑ i in Finset.range L, ∑ j in Finset.range L, c.bi i j

/-- normalize_corpus: total_tri. -/
def total_tri (L : ℕ) (c : Corpus) : ℕ :=
  ∑ i in Finset.range L, ∑ j in Finset.range L, ∑ k in Finset.range L,
    c.tri i j k

/-- normalize_corpus: total_quad. -/
def total_quad (L : ℕ) (c : Corpus) : ℕ :=
  ∑ i in Finset.range L, ∑ j in Finset.range L, ∑ k in Finset.range L,
    ∑ l in Finset.range L, c.quad i j k l

/-- normalize_corpus: total_skip[d], accumulated for d = 1..9. -/
def total_skip (L : ℕ) (c : Corpus) (d : ℕ) : ℕ :=
  ∑ j in Finset.range L, ∑ k in Finset.range L, c.skip d j k

/-- C float division: none when the denominator is zero (the result is
then NaN or an infinity, not a real number). -/
def fdiv (x y : ℚ) : Option ℚ := if y = 0 then none else some (x / y)

/-- normalize_corpus mono branch: inside `if (total_mono > 0)` each entry
i < L is set to corpus_mono[i] * 100 / total_mono; otherwise the zeroed
array is untouched. -/
def linear_mono (L : ℕ) (c : Corpus) (i : ℕ) : Option ℚ :=
  if 0 < total_mono L c ∧ i < L then
    fdiv ((c.mono i : ℚ) * 100) ((total_mono L c : ℚ))
  else some 0

/-- normalize_corpus bi branch. -/
def linear_bi (L : ℕ) (c : Corpus) (i j : ℕ) : Option ℚ :=
  if 0 < total_bi L c ∧ i < L ∧ j < L then
    fdiv ((c.bi i j : ℚ) * 100) ((total_bi L c : ℚ))
  else some 0

/-- normalize_corpus tri branch. -/
def linear_tri (L : ℕ) (c : Corpus) (i j k : ℕ) : Option ℚ :=
  if 0 < total_tri L c ∧ i < L ∧ j < L ∧ k < L then
    fdiv ((c.tri i j k : ℚ) * 100) ((total_tri L c : ℚ))
  else some 0

/-- normalize_corpus quad branch. -/
def linear_quad (L : ℕ) (c : Corpus) (i j k l : ℕ) : Option ℚ :=
  if 0 < total_quad L c ∧ i < L ∧ j < L ∧ k < L ∧ l < L then
    fdiv ((c.quad i j k l : ℚ) * 100) ((total_quad L c : ℚ))
  else some 0

/-- normalize_corpus skip branch.  In the C source the guard reads
`if (total_skip > 0)` where total_skip is a local array, so it compares
the array's address against null and is always true; every entry with
d in 1..9 is therefore written unconditionally, dividing by
total_skip[d] even when that total is zero. -/
def linear_skip (L : ℕ) (c : Corpus) (d j k : ℕ) : Option ℚ :=
  if 1 ≤ d ∧ d ≤ 9 ∧ j < L ∧ k < L then
    fdiv ((c.skip d j k : ℚ) * 100) ((total_skip L c d : ℚ))
  else some 0

/-- The mono percentages do sum to 100 whenever the raw total is nonzero
(the healthy half of the normalization contract). -/
lemma mono_sum_eq_100 (L : ℕ) (c : Corpus) (h : 0 < total_mono L c) :
    ∑ i in Finset.range L, (linear_mono L c i).getD 0 = 100 := by
  have ht : ((total_mono L c : ℚ)) ≠ 0 := by exact_mod_cast h.ne'
  have step : ∀ i ∈ Finset.range L,
      (linear_mono L c i).getD 0 =
        (c.mono i : ℚ) * 100 / (total_mono L c : ℚ) := by
    intro i hi
    rw [Finset.mem_range] at hi
    simp [linear_mono, h, hi, fdiv, ht]
  rw [Finset.sum_congr rfl step, ← Finset.sum_div, ← Finset.sum_mul]
  have hcast : ∑ i in Finset.range L, (c.mono i : ℚ) =
      ((total_mono L c : ℚ)) := by
    rw [total_mono]; push_cast; rfl
  rw [hcast]
  field_simp

/-- Each nonzero-total skip bucket also sums to 100: the defect is only
in the zero-total case. -/
lemma skip_sum_eq_100 (L : ℕ) (c : Corpus) (d : ℕ)
    (hd1 : 1 ≤ d) (hd9 : d ≤ 9) (h : 0 < total_skip L c d) :
    ∑ j in Finset.range L, ∑ k in Finset.range L,
      (linear_skip L c d j k).getD 0 = 100 := by
  have ht : ((total_skip L c d : ℚ)) ≠ 0 := by exact_mod_cast h.ne'
  have step : ∀ j ∈ Finset.range L, ∀ k ∈ Finset.range L,
      (linear_skip L c d j k).getD 0 =
        (c.skip d j k : ℚ) * 100 / (total_skip L c d : ℚ) := by
    intro j hj k hk
    rw [Finset.mem_range] at hj hk
    simp [linear_skip, hd1, hd9, hj, hk, fdiv, ht]
  have outer : ∀ j ∈ Finset.range L,
      ∑ k in Finset.range L, (linear_skip L c d j k).getD 0 =
        ∑ k in Finset.range L,
          (c.skip d j k : ℚ) * 100 / (total_skip L c d : ℚ) := by
    intro j hj
    exact Finset.sum_congr rfl (step j hj)
  rw [Finset.sum_congr rfl outer]
  have hall : ∑ j in Finset.range L, ∑ k in Finset.range L,
      (c.skip d j k : ℚ) * 100 / (total_skip L c d : ℚ) =
      (∑ j in Finset.range L, ∑ k in Finset.range L, (c.skip d j k : ℚ))
        * 100 / (total_skip L c d : ℚ) := by
    rw [Finset.sum_mul, Finset.sum_div]
    exact Finset.sum_congr rfl (by
      intro j hj
      rw [Finset.sum_mul, Finset.sum_div])
  rw [hall]
  have hcast : ∑ j in Finset.range L, ∑ k in Finset.range L,
      (c.skip d j k : ℚ) = ((total_skip L c d : ℚ)) := by
    rw [total_skip]; push_cast; rfl
  rw [hcast]
  field_simp

/-- The all-zero corpus over a one-character alphabet. -/
def zeroCorpus : Corpus :=
  ⟨fun _ => 0, fun _ _ => 0, fun _ _ _ => 0, fun _ _ _ _ => 0,
   fun _ _ _ => 0⟩

/-- C1: at an all-zero corpus the guarded mono/bi/tri/quad branches leave
their tables at zero, but the skip branch — whose C guard
`if (total_skip > 0)` compares an array address and is always true —
still divides by total_skip[1] = 0, so the skip entry is NaN (none), not
the zero the spec promises. -/
theorem C1_normalize_zero_total_skip_divides :
    linear_mono 1 zeroCorpus 0 = some 0 ∧
    linear_bi 1 zeroCorpus 0 0 = some 0 ∧
    linear_tri 1 zeroCorpus 0 0 0 = some 0 ∧
    linear_quad 1 zeroCorpus 0 0 0 0 = some 0 ∧
    total_skip 1 zeroCorpus 1 = 0 ∧
    linear_skip 1 zeroCorpus 1 0 0 = none := by
  refine ⟨?_, ?_, ?_, ?_, ?_, ?_⟩ <;>
    simp [linear_mono, linear_bi, linear_tri, linear_quad, linear_skip,
      total_mono, total_bi, total_tri, total_quad, total_skip,
      zeroCorpus, fdiv]

/-!
Ranking list (util.c create_node).  A layout_node is a name / score pair
linked in non-increasing score order; the list is embedded as a Lean
list, head first.
-/

/-- layout_node: the name / score pair create_node copies out of a
layout. -/
structure LayoutNode where
  name : String
  score : ℚ
deriving DecidableEq

/-- The else-branch loop of create_node: walk the tail while the next
node's score is still ≥ the new node's score, then splice after. -/
def splice (n : LayoutNode) : List LayoutNode → List LayoutNode
  | [] => [n]
  | x :: xs => if n.score ≤ x.score then x :: splice n xs else n :: x :: xs

/-- util.c create_node acting on the list hanging off head_node: insert
at the head when the list is empty or the new score strictly exceeds the
head's, otherwise keep the head and splice into the tail. -/
def create_node (n : LayoutNode) : List LayoutNode → List LayoutNode
  | [] => [n]
  | h :: t => if h.score < n.score then n :: h :: t else h :: splice n t

/-- Non-increasing score order, as the spec states it for the ranking
list. -/
def sortedDesc (l : List LayoutNode) : Prop :=
  l.Pairwise (fun a b => b.score ≤ a.score)

lemma splice_eq (n : LayoutNode) (l : List LayoutNode) :
    splice n l = l.takeWhile (fun x => n.score ≤ x.score) ++
      n :: l.dropWhile (fun x => n.score ≤ x.score) := by
  induction l with
  | nil => simp [splice]
  | cons x xs ih =>
    by_cases hx : n.score ≤ x.score
    · simp [splice, hx, List.takeWhile_cons, List.dropWhile_cons, ih]
    · simp [splice, hx, List.takeWhile_cons, List.dropWhile_cons]

lemma create_node_eq (n : LayoutNode) (l : List LayoutNode) :
    create_node n l = l.takeWhile (fun x => n.score ≤ x.score) ++
      n :: l.dropWhile (fun x => n.score ≤ x.score) := by
  cases l with
  | nil => simp [create_node]
  | cons h t =>
    by_cases hh : h.score < n.score
    · have hnp : ¬ n.score ≤ h.score := not_le.mpr hh
      simp [create_node, hh, hnp, List.takeWhile_cons, List.dropWhile_cons]
    · have hp : n.score ≤ h.score := not_lt.mp hh
      simp [create_node, hh, hp, List.takeWhile_cons, List.dropWhile_cons,
        splice_eq]

lemma sorted_dropWhile_lt (n : LayoutNode) (l : List LayoutNode)
    (h : sortedDesc l) :
    ∀ b ∈ l.dropWhile (fun x => n.score ≤ x.score), b.score < n.score := by
  induction l with
  | nil => simp
  | cons x xs ih =>
    intro b hb
    by_cases hx : n.score ≤ x.score
    · rw [List.dropWhile_cons_of_pos (by simpa using hx)] at hb
      exact ih (List.Pairwise.of_cons h) b hb
    · rw [List.dropWhile_cons_of_neg (by simpa using hx)] at hb
      rcases List.mem_cons.mp hb with rfl | hmem
      · exact not_le.mp hx
      · exact lt_of_le_of_lt ((List.pairwise_cons.mp h).1 b hmem)
          (not_le.mp hx)

lemma create_node_sorted (n : LayoutNode) (l : List LayoutNode)
    (h : sortedDesc l) : sortedDesc (create_node n l) := by
  rw [create_node_eq]
  have hsplit := h
  rw [show l = l.takeWhile (fun x => n.score ≤ x.score) ++
      l.dropWhile (fun x => n.score ≤ x.score) from
    (List.takeWhile_append_dropWhile _ _).symm] at hsplit
  obtain ⟨h1, h2, hcross⟩ := List.pairwise_append.mp hsplit
  refine List.pairwise_append.mpr ⟨h1, ?_, ?_⟩
  · refine List.pairwise_cons.mpr ⟨?_, h2⟩
    intro b hb
    exact le_of_lt (sorted_dropWhile_lt n l h b hb)
  · intro a ha b hb
    rcases List.mem_cons.mp hb with rfl | hmem
    · have := List.mem_takeWhile_imp ha
      simpa using this
    · exact hcross a ha b hmem

/-- The [50, 80, 30, 80] insertion sequence from the spec, inserted into
an initially empty ranking list in that order. -/
def exampleRanking : List LayoutNode :=
  List.foldl (fun acc x => create_node x acc) []
    [⟨"A", 50⟩, ⟨"B", 80⟩, ⟨"C", 30⟩, ⟨"D", 80⟩]

/-- C3: create_node keeps the ranking list sorted in non-increasing score
order; a new node lands exactly past the maximal prefix of nodes whose
score is ≥ its own (so at the head iff the list is empty or its score
strictly exceeds the head's, and after earlier-inserted nodes of equal
score); inserting scores [50, 80, 30, 80] yields [80, 80, 50, 30] with
the first-inserted 80 ahead. -/
theorem C3_create_node_ranking_order :
    (∀ (n : LayoutNode) (l : List LayoutNode), sortedDesc l →
      sortedDesc (create_node n l)) ∧
    (∀ (n : LayoutNode) (l : List LayoutNode),
      create_node n l = l.takeWhile (fun x => n.score ≤ x.score) ++
        n :: l.dropWhile (fun x => n.score ≤ x.score)) ∧
    (∀ n : LayoutNode, create_node n [] = [n]) ∧
    (∀ (n h : LayoutNode) (t : List LayoutNode), h.score < n.score →
      create_node n (h :: t) = n :: h :: t) ∧
    (∀ (n h : LayoutNode) (t : List LayoutNode), ¬ h.score < n.score →
      create_node n (h :: t) = h :: splice n t) ∧
    exampleRanking = [⟨"B", 80⟩, ⟨"D", 80⟩, ⟨"A", 50⟩, ⟨"C", 30⟩] := by
  refine ⟨create_node_sorted, create_node_eq, fun n => rfl, ?_, ?_, ?_⟩
  · intro n h t hh
    simp [create_node, hh]
  · intro n h t hh
    simp [create_node, hh]
  · decide

/-!
Layout model.  A layout (global.h, used throughout util.c) carries a
name, the ROW×COL grid of character identifiers, the aggregate score and
six per-class score vectors: mono, bi, tri, quad, skip (split over the
nine skip distances) and meta.  The statistic counts MONO_END .. META_END
and the weight tables stats_mono .. stats_meta are globals fixed after
configuration load; they are gathered in a Stats record.
-/

/-- The statistic counts and weight tables the scoring loops read
(globals from global.h; skip_weight d j is stats_skip[j].weight[d]). -/
structure Stats where
  mono_end : ℕ
  bi_end : ℕ
  tri_end : ℕ
  quad_end : ℕ
  skip_end : ℕ
  meta_end : ℕ
  mono_weight : ℕ → ℚ
  bi_weight : ℕ → ℚ
  tri_weight : ℕ → ℚ
  quad_weight : ℕ → ℚ
  skip_weight : ℕ → ℕ → ℚ
  meta_weight : ℕ → ℚ

/-- struct layout: name, grid, aggregate score and the six score
vectors (skip_score d j is skip_score[d][j], d = 1..9). -/
structure Layout where
  name : List Char
  matrix : ℕ → ℕ → ℤ
  score : ℚ
  mono_score : ℕ → ℚ
  bi_score : ℕ → ℚ
  tri_score : ℕ → ℚ
  quad_score : ℕ → ℚ
  skip_score : ℕ → ℕ → ℚ
  meta_score : ℕ → ℚ

/-- util.c get_score: `lt->score = 0`, then six accumulation loops, the
skip one running distances 1..9 (the loop variable below is the distance
minus one) and the meta one closing the function. -/
def get_score (st : Stats) (lt : Layout) : Layout :=
  let s1 := (List.range st.mono_end).foldl
    (fun a i => a + lt.mono_score i * st.mono_weight i) 0
  let s2 := (List.range st.bi_end).foldl
    (fun a i => a + lt.bi_score i * st.bi_weight i) s1
  let s3 := (List.range st.tri_end).foldl
    (fun a i => a + lt.tri_score i * st.tri_weight i) s2
  let s4 := (List.range st.quad_end).foldl
    (fun a i => a + lt.quad_score i * st.quad_weight i) s3
  let s5 := (List.range 9).foldl
    (fun a d => (List.range st.skip_end).foldl
      (fun b j => b + lt.skip_score (d + 1) j * st.skip_weight (d + 1) j)
      a) s4
  let s6 := (List.range st.meta_end).foldl
    (fun a i => a + lt.meta_score i * st.meta_weight i) s5
  { lt with score := s6 }

/-- The aggregate the spec describes: the weighted sums of the five
n-gram classes the spec names (mono, bi, tri, quad and the nine skip
distances) and nothing else.  Stated from the spec's words, for
comparison with get_score. -/
def spec_five_class_score (st : Stats) (lt : Layout) : ℚ :=
  (∑ i in Finset.range st.mono_end, lt.mono_score i * st.mono_weight i) +
  (∑ i in Finset.range st.bi_end, lt.bi_score i * st.bi_weight i) +
  (∑ i in Finset.range st.tri_end, lt.tri_score i * st.tri_weight i) +
  (∑ i in Finset.range st.quad_end, lt.quad_score i * st.quad_weight i) +
  (∑ d in Finset.range 9, ∑ j in Finset.range st.skip_end,
    lt.skip_score (d + 1) j * st.skip_weight (d + 1) j)

/-- The meta class's contribution to the aggregate score. -/
def meta_class_score (st : Stats) (lt : Layout) : ℚ :=
  ∑ i in Finset.range st.meta_end, lt.meta_score i * st.meta_weight i

lemma foldl_add_eq_sum (f : ℕ → ℚ) (k : ℕ) (a : ℚ) :
    (List.range k).foldl (fun acc i => acc + f i) a =
      a + ∑ i in Finset.range k, f i := by
  induction k generalizing a with
  | zero => simp
  | succ k ih =>
    rw [List.range_succ, List.foldl_append, ih, Finset.sum_range_succ]
    simp [add_assoc]

lemma foldl_foldl_add_eq_sum (g : ℕ → ℕ → ℚ) (n m : ℕ) (a : ℚ) :
    (List.range n).foldl
      (fun acc d => (List.range m).foldl (fun b j => b + g d j) acc) a =
      a + ∑ d in Finset.range n, ∑ j in Finset.range m, g d j := by
  induction n generalizing a with
  | zero => simp
  | succ n ih =>
    rw [List.range_succ, List.foldl_append, ih, Finset.sum_range_succ]
    simp [foldl_add_eq_sum, add_assoc]

lemma get_score_eq (st : Stats) (lt : Layout) :
    (get_score st lt).score =
      spec_five_class_score st lt + meta_class_score st lt := by
  simp only [get_score, foldl_add_eq_sum, foldl_foldl_add_eq_sum,
    spec_five_class_score, meta_class_score]
  ring

/-- A statistics table whose only live statistic is one meta statistic
of weight 1 (all other class counts zero). -/
def statsMetaOnly : Stats :=
  ⟨0, 0, 0, 0, 0, 1, fun _ => 0, fun _ => 0, fun _ => 0, fun _ => 0,
   fun _ _ => 0, fun _ => 1⟩

/-- A layout whose five spec-class score vectors are all zero but whose
meta_score[0] is 1. -/
def layoutMetaOne : Layout :=
  ⟨[], fun _ _ => 0, 0, fun _ => 0, fun _ => 0, fun _ => 0, fun _ => 0,
   fun _ _ => 0, fun _ => 1⟩

/-- layoutMetaOne with meta_score[0] = 0 instead: it agrees with
layoutMetaOne on all five spec-class score vectors. -/
def layoutMetaZero : Layout :=
  ⟨[], fun _ _ => 0, 0, fun _ => 0, fun _ => 0, fun _ => 0, fun _ => 0,
   fun _ _ => 0, fun _ => 0⟩

/-- C4 counterexample: with one meta statistic of weight 1 and
meta_score[0] = 1, get_score's aggregate is 1, not the sum over the five
classes the claim enumerates (which is 0). -/
theorem C4_counterexample_meta_breaks_five_class_sum :
    (get_score statsMetaOnly layoutMetaOne).score ≠
      spec_five_class_score statsMetaOnly layoutMetaOne := by
  have h1 : (get_score statsMetaOnly layoutMetaOne).score = 1 := by
    simp [get_score, statsMetaOnly, layoutMetaOne, List.range_succ]
  have h2 : spec_five_class_score statsMetaOnly layoutMetaOne = 0 := by
    simp [spec_five_class_score, statsMetaOnly, layoutMetaOne]
  rw [h1, h2]
  norm_num

/-- C4 (amended): get_score sets the aggregate score, recomputed from
zero, to the weighted sum over the five spec classes plus the meta
class's weighted sum; the result does not depend on the score field the
layout came in with. -/
theorem C4_get_score_aggregate (st : Stats) (lt : Layout) :
    (get_score st lt).score =
      spec_five_class_score st lt + meta_class_score st lt ∧
    (∀ q : ℚ, (get_score st { lt with score := q }).score =
      (get_score st lt).score) := by
  refine ⟨get_score_eq st lt, fun q => ?_⟩
  rw [get_score_eq st { lt with score := q }]
  rw [get_score_eq st lt]
  rfl

/-- util.c alloc_layout: the struct's name and matrix come back from
malloc uninitialized (they are the parameters here), score is set to 0
and every score vector is calloc'd to zero.  (In C the skip_score row 0
is never allocated; only distances 1..9 are ever read or written.) -/
def alloc_layout (nm : List Char) (m : ℕ → ℕ → ℤ) : Layout :=
  ⟨nm, m, 0, fun _ => 0, fun _ => 0, fun _ => 0, fun _ => 0,
   fun _ _ => 0, fun _ => 0⟩

/-- get_layout_diff's name construction: each global name truncated to
48 characters by strncpy into a char[49], then joined by snprintf with
" - ". -/
def diff_name (g g2 : List Char) : List Char :=
  g.take 48 ++ [' ', '-', ' '] ++ g2.take 48

/-- util.c get_layout_diff: writes into lt_diff the combined global
names, the cell-wise grid with -1 marking mismatches, and the
entry-wise differences of the aggregate score and of all six score
vectors.  The parameters layout_name and layout2_name are the globals
the name is built from (the layouts' own name fields are never read). -/
def get_layout_diff (R C : ℕ) (st : Stats)
    (layout_name layout2_name : List Char) (lt lt2 ltd : Layout) :
    Layout where
  name := diff_name layout_name layout2_name
  matrix := fun r c =>
    if r < R ∧ c < C then
      (if lt.matrix r c = lt2.matrix r c then lt.matrix r c else -1)
    else ltd.matrix r c
  score := lt.score - lt2.score
  mono_score := fun i =>
    if i < st.mono_end then lt.mono_score i - lt2.mono_score i
    else ltd.mono_score i
  bi_score := fun i =>
    if i < st.bi_end then lt.bi_score i - lt2.bi_score i
    else ltd.bi_score i
  tri_score := fun i =>
    if i < st.tri_end then lt.tri_score i - lt2.tri_score i
    else ltd.tri_score i
  quad_score := fun i =>
    if i < st.quad_end then lt.quad_score i - lt2.quad_score i
    else ltd.quad_score i
  skip_score := fun d j =>
    if 1 ≤ d ∧ d ≤ 9 ∧ j < st.skip_end then
      lt.skip_score d j - lt2.skip_score d j
    else ltd.skip_score d j
  meta_score := fun i =>
    if i < st.meta_end then lt.meta_score i - lt2.meta_score i
    else ltd.meta_score i

/-- util.c copy, as a value: the destination keeps its old contents
outside the copied ranges (name, the R×C grid, the score and every
vector entry below its class's _END bound are taken from the source). -/
def copy (R C : ℕ) (st : Stats) (dst src : Layout) : Layout where
  name := src.name
  matrix := fun r c =>
    if r < R ∧ c < C then src.matrix r c else dst.matrix r c
  score := src.score
  mono_score := fun i =>
    if i < st.mono_end then src.mono_score i else dst.mono_score i
  bi_score := fun i =>
    if i < st.bi_end then src.bi_score i else dst.bi_score i
  tri_score := fun i =>
    if i < st.tri_end then src.tri_score i else dst.tri_score i
  quad_score := fun i =>
    if i < st.quad_end then src.quad_score i else dst.quad_score i
  skip_score := fun d j =>
    if 1 ≤ d ∧ d ≤ 9 ∧ j < st.skip_end then src.skip_score d j
    else dst.skip_score d j
  meta_score := fun i =>
    if i < st.meta_end then src.meta_score i else dst.meta_score i

/-- C5: get_layout_diff keeps agreeing cells, marks differing cells -1,
subtracts the aggregate scores and subtracts every per-class score entry;
hence diff(a, a) has zero aggregate, all-zero per-class entries below
each class bound, and no mismatch marker on any cell of a grid that
holds no -1. -/
theorem C5_get_layout_diff_subtracts (R C : ℕ) (st : Stats)
    (g g2 : List Char) (a b d0 : Layout) :
    (∀ r c, r < R → c < C →
      (get_layout_diff R C st g g2 a b d0).matrix r c =
        if a.matrix r c = b.matrix r c then a.matrix r c else -1) ∧
    (get_layout_diff R C st g g2 a b d0).score = a.score - b.score ∧
    (∀ i, i < st.mono_end →
      (get_layout_diff R C st g g2 a b d0).mono_score i =
        a.mono_score i - b.mono_score i) ∧
    (∀ i, i < st.bi_end →
      (get_layout_diff R C st g g2 a b d0).bi_score i =
        a.bi_score i - b.bi_score i) ∧
    (∀ i, i < st.tri_end →
      (get_layout_diff R C st g g2 a b d0).tri_score i =
        a.tri_score i - b.tri_score i) ∧
    (∀ i, i < st.quad_end →
      (get_layout_diff R C st g g2 a b d0).quad_score i =
        a.quad_score i - b.quad_score i) ∧
    (∀ d j, 1 ≤ d → d ≤ 9 → j < st.skip_end →
      (get_layout_diff R C st g g2 a b d0).skip_score d j =
        a.skip_score d j - b.skip_score d j) ∧
    (∀ i, i < st.meta_end →
      (get_layout_diff R C st g g2 a b d0).meta_score i =
        a.meta_score i - b.meta_score i) ∧
    ((get_layout_diff R C st g g2 a a d0).score = 0 ∧
     (∀ i, i < st.mono_end →
       (get_layout_diff R C st g g2 a a d0).mono_score i = 0) ∧
     (∀ i, i < st.bi_end →
       (get_layout_diff R C st g g2 a a d0).bi_score i = 0) ∧
     (∀ i, i < st.tri_end →
       (get_layout_diff R C st g g2 a a d0).tri_score i = 0) ∧
     (∀ i, i < st.quad_end →
       (get_layout_diff R C st g g2 a a d0).quad_score i = 0) ∧
     (∀ d j, 1 ≤ d → d ≤ 9 → j < st.skip_end →
       (get_layout_diff R C st g g2 a a d0).skip_score d j = 0) ∧
     (∀ i, i < st.meta_end →
       (get_layout_diff R C st g g2 a a d0).meta_score i = 0) ∧
     (∀ r c, r < R → c < C → a.matrix r c ≠ -1 →
       (get_layout_diff R C st g g2 a a d0).matrix r c ≠ -1)) := by
  refine ⟨?_, rfl, ?_, ?_, ?_, ?_, ?_, ?_, ?_, ?_, ?_, ?_, ?_, ?_, ?_, ?_⟩
  · intro r c hr hc
    simp [get_layout_diff, hr, hc]
  · intro i hi; simp [get_layout_diff, hi]
  · intro i hi; simp [get_layout_diff, hi]
  · intro i hi; simp [get_layout_diff, hi]
  · intro i hi; simp [get_layout_diff, hi]
  · intro d j h1 h9 hj; simp [get_layout_diff, h1, h9, hj]
  · intro i hi; simp [get_layout_diff, hi]
  · simp [get_layout_diff]
  · intro i hi; simp [get_layout_diff, hi]
  · intro i hi; simp [get_layout_diff, hi]
  · intro i hi; simp [get_layout_diff, hi]
  · intro i hi; simp [get_layout_diff, hi]
  · intro d j h1 h9 hj; simp [get_layout_diff, h1, h9, hj]
  · intro i hi; simp [get_layout_diff, hi]
  · intro r c hr hc hne
    simp [get_layout_diff, hr, hc, hne]

/-- C10: the diff's name is built from the global layout_name and
layout2_name, each truncated to at most 48 characters and joined with
" - "; it never depends on the name fields of the layouts passed in. -/
theorem C10_diff_name_ignores_layout_names (R C : ℕ) (st : Stats)
    (g g2 : List Char) (a b d0 a2 b2 d2 : Layout) :
    (get_layout_diff R C st g g2 a b d0).name =
      g.take 48 ++ [' ', '-', ' '] ++ g2.take 48 ∧
    (get_layout_diff R C st g g2 a b d0).name =
      (get_layout_diff R C st g g2 a2 b2 d2).name ∧
    (g.take 48).length ≤ 48 ∧ (g2.take 48).length ≤ 48 := by
  refine ⟨rfl, rfl, ?_, ?_⟩ <;> exact List.length_take_le 48 _

/-- C9: the sixth, meta score vector: alloc_layout zeroes it, get_score
folds its weighted sum into the aggregate (so the aggregate is not
determined by the five spec classes alone, witnessed by two layouts
equal on all five spec-class vectors that score differently), and copy
and get_layout_diff copy and difference it like the other classes. -/
theorem C9_meta_score_vector :
    (∀ (nm : List Char) (m : ℕ → ℕ → ℤ) (i : ℕ),
      (alloc_layout nm m).meta_score i = 0 ∧ (alloc_layout nm m).score = 0) ∧
    (∀ st : Stats, ∀ lt : Layout, (get_score st lt).score -
      meta_class_score st lt = spec_five_class_score st lt) ∧
    (∀ (R C : ℕ) (st : Stats) (dst src : Layout) (i : ℕ),
      i < st.meta_end →
        (copy R C st dst src).meta_score i = src.meta_score i) ∧
    (∀ (R C : ℕ) (st : Stats) (g g2 : List Char) (a b d0 : Layout)
      (i : ℕ), i < st.meta_end →
        (get_layout_diff R C st g g2 a b d0).meta_score i =
          a.meta_score i - b.meta_score i) ∧
    ((get_score statsMetaOnly layoutMetaOne).score ≠
      (get_score statsMetaOnly layoutMetaZero).score ∧
      layoutMetaOne.mono_score = layoutMetaZero.mono_score ∧
      layoutMetaOne.bi_score = layoutMetaZero.bi_score ∧
      layoutMetaOne.tri_score = layoutMetaZero.tri_score ∧
      layoutMetaOne.quad_score = layoutMetaZero.quad_score ∧
      layoutMetaOne.skip_score = layoutMetaZero.skip_score) := by
  refine ⟨fun nm m i => ⟨rfl, rfl⟩, ?_, ?_, ?_, ?_⟩
  · intro st lt
    rw [get_score_eq]; ring
  · intro R C st dst src i hi
    simp [copy, hi]
  · intro R C st g g2 a b d0 i hi
    simp [get_layout_diff, hi]
  · refine ⟨?_, rfl, rfl, rfl, rfl, rfl⟩
    have h1 : (get_score statsMetaOnly layoutMetaOne).score = 1 := by
      simp [get_score, statsMetaOnly, layoutMetaOne, List.range_succ]
    have h2 : (get_score statsMetaOnly layoutMetaZero).score = 0 := by
      simp [get_score, statsMetaOnly, layoutMetaZero, List.range_succ]
    rw [h1, h2]
    norm_num

/-!
Shuffling and swapping (util.c shuffle_layout).  The two-cell exchange
in the loop body is the swap primitive the spec's rollback story relies
on; shuffle_layout is the Fisher–Yates pass over the flattened key
sequence, with rand() modelled as a stream indexed by the loop
variable.
-/

/-- The two-cell exchange from shuffle_layout's loop body:
`temp = m[r1][c1]; m[r1][c1] = m[r2][c2]; m[r2][c2] = temp`. -/
def swap_cells (m : ℕ → ℕ → ℤ) (r1 c1 r2 c2 : ℕ) : ℕ → ℕ → ℤ :=
  fun r c =>
    if r = r2 ∧ c = c2 then m r1 c1
    else if r = r1 ∧ c = c1 then m r2 c2
    else m r c

/-- util.c shuffle_layout: for i = DIM1-1 down to 1, draw
j = rand() % (i+1) and exchange flat cells i and j, each flat index k
addressing matrix[k / COL][k % COL]. -/
def shuffle_layout (R C : ℕ) (rand : ℕ → ℕ) (m : ℕ → ℕ → ℤ) :
    ℕ → ℕ → ℤ :=
  (((List.range (DIM1 R C - 1)).map (fun k => k + 1)).reverse).foldl
    (fun mm i =>
      swap_cells mm (i / C) (i % C) ((rand i % (i + 1)) / C)
        ((rand i % (i + 1)) % C)) m

/-- The multiset of character identifiers the R×C grid holds. -/
def cellMultiset (R C : ℕ) (m : ℕ → ℕ → ℤ) : Multiset ℤ :=
  (Finset.range R ×ˢ Finset.range C).val.map (fun p => m p.1 p.2)

lemma swap_cells_eq_comp (m : ℕ → ℕ → ℤ) (r1 c1 r2 c2 : ℕ)
    (p : ℕ × ℕ) :
    swap_cells m r1 c1 r2 c2 p.1 p.2 =
      m (Equiv.swap (r1, c1) (r2, c2) p).1
        (Equiv.swap (r1, c1) (r2, c2) p).2 := by
  rcases p with ⟨r, c⟩
  by_cases h1 : r = r1 ∧ c = c1
  · obtain ⟨e1, e2⟩ := h1
    subst e1; subst e2
    by_cases h2 : r = r2 ∧ c = c2
    · obtain ⟨e3, e4⟩ := h2
      subst e3; subst e4
      simp [swap_cells, Equiv.swap_apply_def]
    · have hne : ((r, c) : ℕ × ℕ) ≠ (r2, c2) := by
        simpa [Prod.ext_iff] using h2
      simp [swap_cells, Equiv.swap_apply_def, h2, hne]
  · by_cases h2 : r = r2 ∧ c = c2
    · obtain ⟨e3, e4⟩ := h2
      subst e3; subst e4
      have hne : ((r, c) : ℕ × ℕ) ≠ (r1, c1) := by
        simpa [Prod.ext_iff] using h1
      simp [swap_cells, Equiv.swap_apply_def, h1, hne]
    · have hne1 : ((r, c) : ℕ × ℕ) ≠ (r1, c1) := by
        simpa [Prod.ext_iff] using h1
      have hne2 : ((r, c) : ℕ × ℕ) ≠ (r2, c2) := by
        simpa [Prod.ext_iff] using h2
      simp [swap_cells, Equiv.swap_apply_def, h1, h2, hne1, hne2]

lemma swap_mem_cells {R C : ℕ} {a b : ℕ × ℕ}
    (ha : a ∈ Finset.range R ×ˢ Finset.range C)
    (hb : b ∈ Finset.range R ×ˢ Finset.range C) (x : ℕ × ℕ) :
    Equiv.swap a b x ∈ Finset.range R ×ˢ Finset.range C ↔
      x ∈ Finset.range R ×ˢ Finset.range C := by
  by_cases hxa : x = a
  · simp [hxa, Equiv.swap_apply_left, ha, hb]
  · by_cases hxb : x = b
    · simp [hxb, Equiv.swap_apply_right, ha, hb]
    · rw [Equiv.swap_apply_of_ne_of_ne hxa hxb]

lemma cellMultiset_swap (R C : ℕ) (m : ℕ → ℕ → ℤ) (r1 c1 r2 c2 : ℕ)
    (h1r : r1 < R) (h1c : c1 < C) (h2r : r2 < R) (h2c : c2 < C) :
    cellMultiset R C (swap_cells m r1 c1 r2 c2) = cellMultiset R C m := by
  have ha : ((r1, c1) : ℕ × ℕ) ∈ Finset.range R ×ˢ Finset.range C := by
    simp [Finset.mem_product, h1r, h1c]
  have hb : ((r2, c2) : ℕ × ℕ) ∈ Finset.range R ×ˢ Finset.range C := by
    simp [Finset.mem_product, h2r, h2c]
  unfold cellMultiset
  rw [Multiset.map_congr rfl
    (fun p _ => swap_cells_eq_comp m r1 c1 r2 c2 p)]
  have hset : (Finset.range R ×ˢ Finset.range C).map
      (Equiv.swap ((r1, c1) : ℕ × ℕ) (r2, c2)).toEmbedding =
      Finset.range R ×ˢ Finset.range C := by
    ext x
    rw [Finset.mem_map_equiv, Equiv.symm_swap]
    exact swap_mem_cells ha hb x
  have hval : (Finset.range R ×ˢ Finset.range C).val.map
      (⇑(Equiv.swap ((r1, c1) : ℕ × ℕ) (r2, c2))) =
      (Finset.range R ×ˢ Finset.range C).val := by
    have h := congrArg Finset.val hset
    simpa [Finset.map_val] using h
  have hcomp : Multiset.map
      (fun p => m (Equiv.swap (r1, c1) (r2, c2) p).1
        (Equiv.swap (r1, c1) (r2, c2) p).2)
      ((Finset.range R ×ˢ Finset.range C).val) =
      Multiset.map ((fun p : ℕ × ℕ => m p.1 p.2) ∘
        (⇑(Equiv.swap ((r1, c1) : ℕ × ℕ) (r2, c2))))
      ((Finset.range R ×ˢ Finset.range C).val) := rfl
  rw [hcomp, ← Multiset.map_map, hval]

lemma shuffle_fold_preserves (R C : ℕ) (hC : 0 < C) (rand : ℕ → ℕ)
    (l : List ℕ) (hl : ∀ i ∈ l, i < DIM1 R C) (m : ℕ → ℕ → ℤ) :
    cellMultiset R C
      (l.foldl (fun mm i =>
        swap_cells mm (i / C) (i % C) ((rand i % (i + 1)) / C)
          ((rand i % (i + 1)) % C)) m) = cellMultiset R C m := by
  induction l generalizing m with
  | nil => rfl
  | cons i t ih =>
    have hi : i < DIM1 R C := hl i (List.mem_cons_self i t)
    have hj : rand i % (i + 1) < DIM1 R C :=
      lt_of_le_of_lt (Nat.lt_succ_iff.mp (Nat.mod_lt _ (Nat.succ_pos i)))
        hi
    have hdivR : ∀ k, k < DIM1 R C → k / C < R := by
      intro k hk
      rw [Nat.div_lt_iff_lt_mul hC]
      simpa [DIM1, Nat.mul_comm] using hk
    rw [List.foldl_cons,
      ih (fun x hx => hl x (List.mem_cons_of_mem i hx)),
      cellMultiset_swap R C m _ _ _ _ (hdivR i hi) (Nat.mod_lt _ hC)
        (hdivR _ hj) (Nat.mod_lt _ hC)]

/-- C7: shuffle_layout's swap partner j = rand % (i+1) always lies in
[0, i], and the shuffled grid holds exactly the same multiset of
character identifiers over the ROW×COL cells as the original grid. -/
theorem C7_shuffle_layout_permutes (R C : ℕ) (hC : 0 < C)
    (rand : ℕ → ℕ) (m : ℕ → ℕ → ℤ) :
    cellMultiset R C (shuffle_layout R C rand m) = cellMultiset R C m ∧
    (∀ i : ℕ, rand i % (i + 1) ≤ i) := by
  constructor
  · unfold shuffle_layout
    apply shuffle_fold_preserves R C hC rand
    intro i hi
    simp only [List.mem_reverse, List.mem_map, List.mem_range] at hi
    obtain ⟨k, hk, rfl⟩ := hi
    omega
  · intro i
    exact Nat.lt_succ_iff.mp (Nat.mod_lt _ (Nat.succ_pos i))

/-- C7 witness: a concrete 2×3 grid and a concrete draw stream. -/
theorem C7_shuffle_layout_permutes_witness :
    cellMultiset 2 3 (shuffle_layout 2 3 (fun i => i * i + 1)
        (fun r c => (3 * r + c : ℤ))) =
      cellMultiset 2 3 (fun r c => (3 * r + c : ℤ)) ∧
    (∀ i : ℕ, (i * i + 1) % (i + 1) ≤ i) :=
  C7_shuffle_layout_permutes 2 3 (by decide) (fun i => i * i + 1)
    (fun r c => (3 * r + c : ℤ))

/-- C8: the two-cell exchange is its own inverse — applying the same
swap twice restores the grid exactly — and therefore any deterministic
rescoring of the restored grid reproduces the original scores. -/
theorem C8_swap_self_inverse (m : ℕ → ℕ → ℤ) (r1 c1 r2 c2 : ℕ) :
    swap_cells (swap_cells m r1 c1 r2 c2) r1 c1 r2 c2 = m ∧
    (∀ rescore : (ℕ → ℕ → ℤ) → Layout,
      rescore (swap_cells (swap_cells m r1 c1 r2 c2) r1 c1 r2 c2) =
        rescore m) := by
  have hdouble :
      swap_cells (swap_cells m r1 c1 r2 c2) r1 c1 r2 c2 = m := by
    funext r c
    by_cases h2 : r = r2 ∧ c = c2 <;> by_cases h1 : r = r1 ∧ c = c1 <;>
      simp only [swap_cells, h1, h2, and_self, if_true, if_false,
        and_true, true_and] <;> simp_all
  exact ⟨hdouble, fun rescore => by rw [hdouble]⟩

/-!
Heap model for the deep-copy claim.  A layout struct's inline fields
(name, matrix, score) live at the struct's address; the six score
vectors are separately malloc'd float arrays addressed by their own
references.  util.c copy is re-read as a sequence of stores so that
aliasing between source and destination is expressible.
-/

/-- The inline fields of struct layout (char name[], int matrix[][],
float score). -/
structure StructVal where
  name : List Char
  matrix : ℕ → ℕ → ℤ
  score : ℚ

/-- Memory: struct contents by struct address, float-array contents by
array address and element index. -/
structure Heap where
  structs : ℕ → StructVal
  arrays : ℕ → ℕ → ℚ

/-- The addresses making up one allocated layout: the struct itself and
the six score vectors (skipRef d for d = 1..9). -/
structure LayoutRefs where
  self : ℕ
  monoRef : ℕ
  biRef : ℕ
  triRef : ℕ
  quadRef : ℕ
  metaRef : ℕ
  skipRef : ℕ → ℕ

/-- The score-array addresses a layout owns. -/
def arrayRefs (lt : LayoutRefs) : List ℕ :=
  [lt.monoRef, lt.biRef, lt.triRef, lt.quadRef, lt.metaRef] ++
    (List.range 9).map (fun d => lt.skipRef (d + 1))

/-- Store to a layout struct's name field. -/
def writeName (h : Heap) (a : ℕ) (s : List Char) : Heap where
  structs := fun b =>
    if b = a then { h.structs b with name := s } else h.structs b
  arrays := h.arrays

/-- Store to one cell of a layout struct's matrix. -/
def writeCell (h : Heap) (a r c : ℕ) (v : ℤ) : Heap where
  structs := fun b =>
    if b = a then
      { h.structs b with matrix := fun r2 c2 =>
          if r2 = r ∧ c2 = c then v else (h.structs b).matrix r2 c2 }
    else h.structs b
  arrays := h.arrays

/-- Store to a layout struct's score field. -/
def writeScore (h : Heap) (a : ℕ) (v : ℚ) : Heap where
  structs := fun b =>
    if b = a then { h.structs b with score := v } else h.structs b
  arrays := h.arrays

/-- Store to one element of a score array. -/
def writeArr (h : Heap) (a i : ℕ) (v : ℚ) : Heap where
  structs := h.structs
  arrays := fun b j => if b = a ∧ j = i then v else h.arrays b j

/-- One score-vector loop of util.c copy:
`for i < k: dest_arr[i] = src_arr[i]`, target array t, source array s. -/
def copy_vec_stage (t s k : ℕ) (h : Heap) : Heap :=
  (List.range k).foldl (fun hh i => writeArr hh t i (hh.arrays s i)) h

/-- One row of copy's matrix loop. -/
def copy_matrix_row (t s r C : ℕ) (h : Heap) : Heap :=
  (List.range C).foldl
    (fun hh c => writeCell hh t r c ((hh.structs s).matrix r c)) h

/-- copy's matrix loop: `dest->matrix[r][c] = src->matrix[r][c]` for all
r < R, c < C. -/
def copy_matrix_stage (R C t s : ℕ) (h : Heap) : Heap :=
  (List.range R).foldl (fun hh r => copy_matrix_row t s r C hh) h

/-- copy's skip loops: for d = 1..9 copy the skip_score[d] array. -/
def copy_skip_stage (dstF srcF : ℕ → ℕ) (m : ℕ) (h : Heap) : Heap :=
  (List.range 9).foldl
    (fun hh d => copy_vec_stage (dstF (d + 1)) (srcF (d + 1)) m hh) h

/-- util.c copy as heap stores, in the source's order: name, matrix,
score, then the mono/bi/tri/quad/meta vectors, then the skip vectors. -/
def copy_heap (R C : ℕ) (st : Stats) (dst src : LayoutRefs) (h : Heap) :
    Heap :=
  copy_skip_stage dst.skipRef src.skipRef st.skip_end
    (copy_vec_stage dst.metaRef src.metaRef st.meta_end
      (copy_vec_stage dst.quadRef src.quadRef st.quad_end
        (copy_vec_stage dst.triRef src.triRef st.tri_end
          (copy_vec_stage dst.biRef src.biRef st.bi_end
            (copy_vec_stage dst.monoRef src.monoRef st.mono_end
              (writeScore
                (copy_matrix_stage R C dst.self src.self
                  (writeName h dst.self
                    ((h.structs src.self).name)))
                dst.self
                (((copy_matrix_stage R C dst.self src.self
                    (writeName h dst.self
                      ((h.structs src.self).name))).structs
                  src.self).score)))))))

/-- Reading a whole layout back out of the heap. -/
def readLayout (h : Heap) (lt : LayoutRefs) : Layout where
  name := (h.structs lt.self).name
  matrix := (h.structs lt.self).matrix
  score := (h.structs lt.self).score
  mono_score := h.arrays lt.monoRef
  bi_score := h.arrays lt.biRef
  tri_score := h.arrays lt.triRef
  quad_score := h.arrays lt.quadRef
  skip_score := fun d => h.arrays (lt.skipRef d)
  meta_score := h.arrays lt.metaRef

lemma copy_vec_stage_structs (t s k : ℕ) (h : Heap) :
    (copy_vec_stage t s k h).structs = h.structs := by
  unfold copy_vec_stage
  induction List.range k generalizing h with
  | nil => rfl
  | cons x xs ih => rw [List.foldl_cons, ih]; rfl

lemma copy_vec_stage_other (t s : ℕ) (k : ℕ) (h : Heap) (b : ℕ)
    (hb : b ≠ t) (j : ℕ) :
    (copy_vec_stage t s k h).arrays b j = h.arrays b j := by
  unfold copy_vec_stage
  induction List.range k generalizing h with
  | nil => rfl
  | cons x xs ih => rw [List.foldl_cons, ih]; simp [writeArr, hb]

lemma copy_vec_stage_self (t s : ℕ) (hts : s ≠ t) (k : ℕ) (h : Heap)
    (i : ℕ) (hi : i < k) :
    (copy_vec_stage t s k h).arrays t i = h.arrays s i := by
  induction k with
  | zero => omega
  | succ k ih =>
    unfold copy_vec_stage
    rw [List.range_succ, List.foldl_append, List.foldl_cons,
      List.foldl_nil]
    by_cases hik : i = k
    · subst hik
      have hs := copy_vec_stage_other t s i h s hts i
      unfold copy_vec_stage at hs
      simp [writeArr]
      exact hs
    · have hik2 : i < k := by omega
      have := ih hik2
      unfold copy_vec_stage at this
      simp [writeArr, hik]
      exact this

lemma writeName_arrays (h : Heap) (a : ℕ) (s : List Char) :
    (writeName h a s).arrays = h.arrays := rfl

lemma writeScore_arrays (h : Heap) (a : ℕ) (v : ℚ) :
    (writeScore h a v).arrays = h.arrays := rfl

lemma writeCell_arrays (h : Heap) (a r c : ℕ) (v : ℤ) :
    (writeCell h a r c v).arrays = h.arrays := rfl

lemma writeName_structs_ne (h : Heap) (a : ℕ) (s : List Char) (b : ℕ)
    (hb : b ≠ a) : (writeName h a s).structs b = h.structs b := by
  simp [writeName, hb]

lemma writeScore_structs_ne (h : Heap) (a : ℕ) (v : ℚ) (b : ℕ)
    (hb : b ≠ a) : (writeScore h a v).structs b = h.structs b := by
  simp [writeScore, hb]

lemma writeScore_name (h : Heap) (a : ℕ) (v : ℚ) (b : ℕ) :
    ((writeScore h a v).structs b).name = (h.structs b).name := by
  by_cases hb : b = a <;> simp [writeScore, hb]

lemma writeScore_matrix (h : Heap) (a : ℕ) (v : ℚ) (b : ℕ) :
    ((writeScore h a v).structs b).matrix = (h.structs b).matrix := by
  by_cases hb : b = a <;> simp [writeScore, hb]

lemma writeScore_score_self (h : Heap) (a : ℕ) (v : ℚ) :
    ((writeScore h a v).structs a).score = v := by
  simp [writeScore]

lemma writeName_score (h : Heap) (a : ℕ) (s : List Char) (b : ℕ) :
    ((writeName h a s).structs b).score = (h.structs b).score := by
  by_cases hb : b = a <;> simp [writeName, hb]

lemma writeName_matrix (h : Heap) (a : ℕ) (s : List Char) (b : ℕ) :
    ((writeName h a s).structs b).matrix = (h.structs b).matrix := by
  by_cases hb : b = a <;> simp [writeName, hb]

lemma writeName_name_self (h : Heap) (a : ℕ) (s : List Char) :
    ((writeName h a s).structs a).name = s := by
  simp [writeName]

lemma copy_matrix_row_arrays (t s r C : ℕ) (h : Heap) :
    (copy_matrix_row t s r C h).arrays = h.arrays := by
  unfold copy_matrix_row
  induction List.range C generalizing h with
  | nil => rfl
  | cons x xs ih => rw [List.foldl_cons, ih]; rfl

lemma copy_matrix_row_structs_ne (t s r C : ℕ) (h : Heap) (b : ℕ)
    (hb : b ≠ t) : (copy_matrix_row t s r C h).structs b = h.structs b := by
  unfold copy_matrix_row
  induction List.range C generalizing h with
  | nil => rfl
  | cons x xs ih => rw [List.foldl_cons, ih]; simp [writeCell, hb]

lemma copy_matrix_row_name (t s r C : ℕ) (h : Heap) (b : ℕ) :
    ((copy_matrix_row t s r C h).structs b).name =
      (h.structs b).name := by
  unfold copy_matrix_row
  induction List.range C generalizing h with
  | nil => rfl
  | cons x xs ih =>
    rw [List.foldl_cons, ih]
    by_cases hb : b = t <;> simp [writeCell, hb]

lemma copy_matrix_row_score (t s r C : ℕ) (h : Heap) (b : ℕ) :
    ((copy_matrix_row t s r C h).structs b).score =
      (h.structs b).score := by
  unfold copy_matrix_row
  induction List.range C generalizing h with
  | nil => rfl
  | cons x xs ih =>
    rw [List.foldl_cons, ih]
    by_cases hb : b = t <;> simp [writeCell, hb]

lemma writeCell_matrix_self (h : Heap) (a r c : ℕ) (v : ℤ)
    (r2 c2 : ℕ) :
    ((writeCell h a r c v).structs a).matrix r2 c2 =
      if r2 = r ∧ c2 = c then v else (h.structs a).matrix r2 c2 := by
  simp [writeCell]

lemma copy_matrix_row_matrix (t s r : ℕ) (hst : s ≠ t) (C : ℕ)
    (h : Heap) (r2 c2 : ℕ) :
    ((copy_matrix_row t s r C h).structs t).matrix r2 c2 =
      if r2 = r ∧ c2 < C then (h.structs s).matrix r c2
      else (h.structs t).matrix r2 c2 := by
  induction C with
  | zero => simp [copy_matrix_row]
  | succ k ih =>
    have hs : (copy_matrix_row t s r k h).structs s = h.structs s :=
      copy_matrix_row_structs_ne t s r k h s hst
    unfold copy_matrix_row at ih hs ⊢
    rw [List.range_succ, List.foldl_append, List.foldl_cons,
      List.foldl_nil, writeCell_matrix_self, hs, ih]
    split_ifs <;> first | rfl | omega | simp_all

lemma copy_matrix_stage_arrays (R C t s : ℕ) (h : Heap) :
    (copy_matrix_stage R C t s h).arrays = h.arrays := by
  unfold copy_matrix_stage
  induction List.range R generalizing h with
  | nil => rfl
  | cons x xs ih => rw [List.foldl_cons, ih, copy_matrix_row_arrays]

lemma copy_matrix_stage_structs_ne (R C t s : ℕ) (h : Heap) (b : ℕ)
    (hb : b ≠ t) :
    (copy_matrix_stage R C t s h).structs b = h.structs b := by
  unfold copy_matrix_stage
  induction List.range R generalizing h with
  | nil => rfl
  | cons x xs ih => rw [List.foldl_cons, ih, copy_matrix_row_structs_ne _ _ _ _ _ _ hb]

lemma copy_matrix_stage_name (R C t s : ℕ) (h : Heap) (b : ℕ) :
    ((copy_matrix_stage R C t s h).structs b).name =
      (h.structs b).name := by
  unfold copy_matrix_stage
  induction List.range R generalizing h with
  | nil => rfl
  | cons x xs ih => rw [List.foldl_cons, ih, copy_matrix_row_name]

lemma copy_matrix_stage_score (R C t s : ℕ) (h : Heap) (b : ℕ) :
    ((copy_matrix_stage R C t s h).structs b).score =
      (h.structs b).score := by
  unfold copy_matrix_stage
  induction List.range R generalizing h with
  | nil => rfl
  | cons x xs ih => rw [List.foldl_cons, ih, copy_matrix_row_score]

lemma copy_matrix_stage_matrix (t s : ℕ) (hst : s ≠ t) (R C : ℕ)
    (h : Heap) (r2 c2 : ℕ) :
    ((copy_matrix_stage R C t s h).structs t).matrix r2 c2 =
      if r2 < R ∧ c2 < C then (h.structs s).matrix r2 c2
      else (h.structs t).matrix r2 c2 := by
  induction R with
  | zero => simp [copy_matrix_stage]
  | succ k ih =>
    unfold copy_matrix_stage
    rw [List.range_succ, List.foldl_append, List.foldl_cons,
      List.foldl_nil]
    have hrow := copy_matrix_row_matrix t s k hst C
      (copy_matrix_stage k C t s h) r2 c2
    unfold copy_matrix_stage at hrow
    rw [hrow]
    have hs : (copy_matrix_stage k C t s h).structs s = h.structs s :=
      copy_matrix_stage_structs_ne k C t s h s hst
    unfold copy_matrix_stage at hs ih
    rw [hs, ih]
    by_cases hr2 : r2 = k
    · subst hr2
      split_ifs <;> first | rfl | omega
    · split_ifs <;> first | rfl | omega

lemma skip_fold_structs (dstF srcF : ℕ → ℕ) (m : ℕ) (l : List ℕ)
    (h : Heap) :
    ((l.foldl
      (fun hh d => copy_vec_stage (dstF (d + 1)) (srcF (d + 1)) m hh)
      h).structs) = h.structs := by
  induction l generalizing h with
  | nil => rfl
  | cons d tl ih => rw [List.foldl_cons, ih, copy_vec_stage_structs]

lemma skip_fold_other (dstF srcF : ℕ → ℕ) (m : ℕ) (l : List ℕ)
    (h : Heap) (b : ℕ) (hb : ∀ d ∈ l, b ≠ dstF (d + 1)) (j : ℕ) :
    ((l.foldl
      (fun hh d => copy_vec_stage (dstF (d + 1)) (srcF (d + 1)) m hh)
      h).arrays) b j = h.arrays b j := by
  induction l generalizing h with
  | nil => rfl
  | cons d tl ih =>
    rw [List.foldl_cons,
      ih _ (fun x hx => hb x (List.mem_cons_of_mem d hx)),
      copy_vec_stage_other _ _ _ _ _ (hb d (List.mem_cons_self d tl))]

lemma skip_fold_self (dstF srcF : ℕ → ℕ) (m : ℕ) (l : List ℕ)
    (hnd : (l.map (fun d => dstF (d + 1))).Nodup)
    (hsd : ∀ d1 ∈ l, ∀ d2 ∈ l, srcF (d1 + 1) ≠ dstF (d2 + 1))
    (d0 : ℕ) (hd0 : d0 ∈ l) (h : Heap) (j : ℕ) (hj : j < m) :
    ((l.foldl
      (fun hh d => copy_vec_stage (dstF (d + 1)) (srcF (d + 1)) m hh)
      h).arrays) (dstF (d0 + 1)) j = h.arrays (srcF (d0 + 1)) j := by
  induction l generalizing h with
  | nil => cases hd0
  | cons d tl ih =>
    rw [List.foldl_cons]
    rcases List.mem_cons.mp hd0 with rfl | hmem
    · have hset : (copy_vec_stage (dstF (d0 + 1)) (srcF (d0 + 1)) m
          h).arrays (dstF (d0 + 1)) j = h.arrays (srcF (d0 + 1)) j :=
        copy_vec_stage_self _ _
          (hsd d0 (List.mem_cons_self d0 tl) d0 (List.mem_cons_self d0 tl))
          m h j hj
      have hhead : dstF (d0 + 1) ∉ tl.map (fun d => dstF (d + 1)) :=
        (List.nodup_cons.mp (by simpa using hnd)).1
      have htl : ∀ x ∈ tl, dstF (d0 + 1) ≠ dstF (x + 1) := by
        intro x hx heq
        exact hhead (List.mem_map.mpr ⟨x, hx, heq.symm⟩)
      rw [skip_fold_other dstF srcF m tl _ _ htl j, hset]
    · rw [ih ((List.nodup_cons.mp (by simpa using hnd)).2)
        (fun x hx y hy => hsd x (List.mem_cons_of_mem d hx) y
          (List.mem_cons_of_mem d hy)) hmem]
      exact copy_vec_stage_other _ _ _ _ _
        (hsd d0 hd0 d (List.mem_cons_self d tl)) j

lemma writeCell_structs_ne (h : Heap) (a r c : ℕ) (v : ℤ) (b : ℕ)
    (hb : b ≠ a) : (writeCell h a r c v).structs b = h.structs b := by
  simp [writeCell, hb]

lemma writeArr_arrays_ne (h : Heap) (a i : ℕ) (v : ℚ) (b : ℕ)
    (hb : b ≠ a) (j : ℕ) :
    (writeArr h a i v).arrays b j = h.arrays b j := by
  simp [writeArr, hb]

lemma mem_arrayRefs_skip (lt : LayoutRefs) (d : ℕ) (hd1 : 1 ≤ d)
    (hd9 : d ≤ 9) : lt.skipRef d ∈ arrayRefs lt := by
  simp only [arrayRefs]
  refine List.mem_append.mpr (Or.inr ?_)
  refine List.mem_map.mpr ⟨d - 1, ?_, ?_⟩
  · rw [List.mem_range]; omega
  · congr 1; omega

lemma copy_heap_mono_val (R C : ℕ) (st : Stats) (dst src : LayoutRefs)
    (h : Heap)
    (ne1 : dst.monoRef ≠ dst.biRef) (ne2 : dst.monoRef ≠ dst.triRef)
    (ne3 : dst.monoRef ≠ dst.quadRef) (ne4 : dst.monoRef ≠ dst.metaRef)
    (ne5 : ∀ d ∈ List.range 9, dst.monoRef ≠ dst.skipRef (d + 1))
    (hts : src.monoRef ≠ dst.monoRef) (i : ℕ) (hi : i < st.mono_end) :
    (copy_heap R C st dst src h).arrays dst.monoRef i =
      h.arrays src.monoRef i := by
  unfold copy_heap copy_skip_stage
  rw [skip_fold_other _ _ _ _ _ _ ne5 i,
    copy_vec_stage_other _ _ _ _ _ ne4 i,
    copy_vec_stage_other _ _ _ _ _ ne3 i,
    copy_vec_stage_other _ _ _ _ _ ne2 i,
    copy_vec_stage_other _ _ _ _ _ ne1 i,
    copy_vec_stage_self _ _ hts _ _ i hi,
    writeScore_arrays, copy_matrix_stage_arrays, writeName_arrays]

lemma copy_heap_bi_val (R C : ℕ) (st : Stats) (dst src : LayoutRefs)
    (h : Heap)
    (ne1 : dst.biRef ≠ dst.triRef) (ne2 : dst.biRef ≠ dst.quadRef)
    (ne3 : dst.biRef ≠ dst.metaRef)
    (ne4 : ∀ d ∈ List.range 9, dst.biRef ≠ dst.skipRef (d + 1))
    (hts : src.biRef ≠ dst.biRef) (nb1 : src.biRef ≠ dst.monoRef)
    (i : ℕ) (hi : i < st.bi_end) :
    (copy_heap R C st dst src h).arrays dst.biRef i =
      h.arrays src.biRef i := by
  unfold copy_heap copy_skip_stage
  rw [skip_fold_other _ _ _ _ _ _ ne4 i,
    copy_vec_stage_other _ _ _ _ _ ne3 i,
    copy_vec_stage_other _ _ _ _ _ ne2 i,
    copy_vec_stage_other _ _ _ _ _ ne1 i,
    copy_vec_stage_self _ _ hts _ _ i hi,
    copy_vec_stage_other _ _ _ _ _ nb1 i,
    writeScore_arrays, copy_matrix_stage_arrays, writeName_arrays]

lemma copy_heap_tri_val (R C : ℕ) (st : Stats) (dst src : LayoutRefs)
    (h : Heap)
    (ne1 : dst.triRef ≠ dst.quadRef) (ne2 : dst.triRef ≠ dst.metaRef)
    (ne3 : ∀ d ∈ List.range 9, dst.triRef ≠ dst.skipRef (d + 1))
    (hts : src.triRef ≠ dst.triRef) (nb1 : src.triRef ≠ dst.monoRef)
    (nb2 : src.triRef ≠ dst.biRef) (i : ℕ) (hi : i < st.tri_end) :
    (copy_heap R C st dst src h).arrays dst.triRef i =
      h.arrays src.triRef i := by
  unfold copy_heap copy_skip_stage
  rw [skip_fold_other _ _ _ _ _ _ ne3 i,
    copy_vec_stage_other _ _ _ _ _ ne2 i,
    copy_vec_stage_other _ _ _ _ _ ne1 i,
    copy_vec_stage_self _ _ hts _ _ i hi,
    copy_vec_stage_other _ _ _ _ _ nb2 i,
    copy_vec_stage_other _ _ _ _ _ nb1 i,
    writeScore_arrays, copy_matrix_stage_arrays, writeName_arrays]

lemma copy_heap_quad_val (R C : ℕ) (st : Stats) (dst src : LayoutRefs)
    (h : Heap)
    (ne1 : dst.quadRef ≠ dst.metaRef)
    (ne2 : ∀ d ∈ List.range 9, dst.quadRef ≠ dst.skipRef (d + 1))
    (hts : src.quadRef ≠ dst.quadRef) (nb1 : src.quadRef ≠ dst.monoRef)
    (nb2 : src.quadRef ≠ dst.biRef) (nb3 : src.quadRef ≠ dst.triRef)
    (i : ℕ) (hi : i < st.quad_end) :
    (copy_heap R C st dst src h).arrays dst.quadRef i =
      h.arrays src.quadRef i := by
  unfold copy_heap copy_skip_stage
  rw [skip_fold_other _ _ _ _ _ _ ne2 i,
    copy_vec_stage_other _ _ _ _ _ ne1 i,
    copy_vec_stage_self _ _ hts _ _ i hi,
    copy_vec_stage_other _ _ _ _ _ nb3 i,
    copy_vec_stage_other _ _ _ _ _ nb2 i,
    copy_vec_stage_other _ _ _ _ _ nb1 i,
    writeScore_arrays, copy_matrix_stage_arrays, writeName_arrays]

lemma copy_heap_meta_val (R C : ℕ) (st : Stats) (dst src : LayoutRefs)
    (h : Heap)
    (ne1 : ∀ d ∈ List.range 9, dst.metaRef ≠ dst.skipRef (d + 1))
    (hts : src.metaRef ≠ dst.metaRef) (nb1 : src.metaRef ≠ dst.monoRef)
    (nb2 : src.metaRef ≠ dst.biRef) (nb3 : src.metaRef ≠ dst.triRef)
    (nb4 : src.metaRef ≠ dst.quadRef) (i : ℕ) (hi : i < st.meta_end) :
    (copy_heap R C st dst src h).arrays dst.metaRef i =
      h.arrays src.metaRef i := by
  unfold copy_heap copy_skip_stage
  rw [skip_fold_other _ _ _ _ _ _ ne1 i,
    copy_vec_stage_self _ _ hts _ _ i hi,
    copy_vec_stage_other _ _ _ _ _ nb4 i,
    copy_vec_stage_other _ _ _ _ _ nb3 i,
    copy_vec_stage_other _ _ _ _ _ nb2 i,
    copy_vec_stage_other _ _ _ _ _ nb1 i,
    writeScore_arrays, copy_matrix_stage_arrays, writeName_arrays]

lemma copy_heap_skip_val (R C : ℕ) (st : Stats) (dst src : LayoutRefs)
    (h : Heap)
    (hmapnd : ((List.range 9).map (fun d => dst.skipRef (d + 1))).Nodup)
    (hsd : ∀ d1 ∈ List.range 9, ∀ d2 ∈ List.range 9,
      src.skipRef (d1 + 1) ≠ dst.skipRef (d2 + 1))
    (d : ℕ) (hd1 : 1 ≤ d) (hd9 : d ≤ 9)
    (nb1 : src.skipRef d ≠ dst.monoRef) (nb2 : src.skipRef d ≠ dst.biRef)
    (nb3 : src.skipRef d ≠ dst.triRef) (nb4 : src.skipRef d ≠ dst.quadRef)
    (nb5 : src.skipRef d ≠ dst.metaRef) (j : ℕ) (hj : j < st.skip_end) :
    (copy_heap R C st dst src h).arrays (dst.skipRef d) j =
      h.arrays (src.skipRef d) j := by
  have hd : d = d - 1 + 1 := by omega
  have hd0 : d - 1 ∈ List.range 9 := by rw [List.mem_range]; omega
  rw [hd] at nb1 nb2 nb3 nb4 nb5 ⊢
  unfold copy_heap copy_skip_stage
  rw [skip_fold_self dst.skipRef src.skipRef st.skip_end (List.range 9)
      hmapnd hsd (d - 1) hd0 _ j hj,
    copy_vec_stage_other _ _ _ _ _ nb5 j,
    copy_vec_stage_other _ _ _ _ _ nb4 j,
    copy_vec_stage_other _ _ _ _ _ nb3 j,
    copy_vec_stage_other _ _ _ _ _ nb2 j,
    copy_vec_stage_other _ _ _ _ _ nb1 j,
    writeScore_arrays, copy_matrix_stage_arrays, writeName_arrays]

lemma copy_heap_structs_eq (R C : ℕ) (st : Stats) (dst src : LayoutRefs)
    (h : Heap) :
    (copy_heap R C st dst src h).structs =
      (writeScore
        (copy_matrix_stage R C dst.self src.self
          (writeName h dst.self ((h.structs src.self).name)))
        dst.self
        (((copy_matrix_stage R C dst.self src.self
            (writeName h dst.self ((h.structs src.self).name))).structs
          src.self).score)).structs := by
  unfold copy_heap copy_skip_stage
  rw [skip_fold_structs, copy_vec_stage_structs, copy_vec_stage_structs,
    copy_vec_stage_structs, copy_vec_stage_structs, copy_vec_stage_structs]

lemma copy_heap_name (R C : ℕ) (st : Stats) (dst src : LayoutRefs)
    (h : Heap) :
    ((copy_heap R C st dst src h).structs dst.self).name =
      (h.structs src.self).name := by
  rw [copy_heap_structs_eq, writeScore_name, copy_matrix_stage_name,
    writeName_name_self]

lemma copy_heap_score (R C : ℕ) (st : Stats) (dst src : LayoutRefs)
    (h : Heap) :
    ((copy_heap R C st dst src h).structs dst.self).score =
      (h.structs src.self).score := by
  rw [copy_heap_structs_eq, writeScore_score_self, copy_matrix_stage_score,
    writeName_score]

lemma copy_heap_matrix (R C : ℕ) (st : Stats) (dst src : LayoutRefs)
    (h : Heap) (hself : dst.self ≠ src.self) (r c : ℕ) (hr : r < R)
    (hc : c < C) :
    ((copy_heap R C st dst src h).structs dst.self).matrix r c =
      (h.structs src.self).matrix r c := by
  rw [copy_heap_structs_eq, writeScore_matrix,
    copy_matrix_stage_matrix dst.self src.self (Ne.symm hself) R C _ r c]
  simp [hr, hc, writeName_matrix]

/-- The observable contents of the layout at lt: the struct's inline
fields and every score-array entry (skip over distances 1..9). -/
def sameLayoutView (h1 h2 : Heap) (lt : LayoutRefs) : Prop :=
  (h1.structs lt.self).name = (h2.structs lt.self).name ∧
  (h1.structs lt.self).matrix = (h2.structs lt.self).matrix ∧
  (h1.structs lt.self).score = (h2.structs lt.self).score ∧
  (∀ i, h1.arrays lt.monoRef i = h2.arrays lt.monoRef i) ∧
  (∀ i, h1.arrays lt.biRef i = h2.arrays lt.biRef i) ∧
  (∀ i, h1.arrays lt.triRef i = h2.arrays lt.triRef i) ∧
  (∀ i, h1.arrays lt.quadRef i = h2.arrays lt.quadRef i) ∧
  (∀ i, h1.arrays lt.metaRef i = h2.arrays lt.metaRef i) ∧
  (∀ d j, 1 ≤ d → d ≤ 9 →
    h1.arrays (lt.skipRef d) j = h2.arrays (lt.skipRef d) j)

/-- C6: with the destination and source separately allocated (distinct
struct addresses, destination score arrays pairwise distinct and
disjoint from the source's), copy makes the destination read back equal
to the source in name, grid, aggregate score and every score-vector
entry, and afterwards any store into the source's grid or into any of
the source's score arrays leaves the destination's view unchanged. -/
theorem C6_copy_is_deep_and_unshared (R C : ℕ) (st : Stats)
    (dst src : LayoutRefs) (h : Heap)
    (hself : dst.self ≠ src.self)
    (hnd : (arrayRefs dst).Nodup)
    (hdisj : ∀ a ∈ arrayRefs dst, a ∉ arrayRefs src) :
    ((readLayout (copy_heap R C st dst src h) dst).name =
      (readLayout h src).name) ∧
    (∀ r c, r < R → c < C →
      (readLayout (copy_heap R C st dst src h) dst).matrix r c =
        (readLayout h src).matrix r c) ∧
    ((readLayout (copy_heap R C st dst src h) dst).score =
      (readLayout h src).score) ∧
    (∀ i, i < st.mono_end →
      (readLayout (copy_heap R C st dst src h) dst).mono_score i =
        (readLayout h src).mono_score i) ∧
    (∀ i, i < st.bi_end →
      (readLayout (copy_heap R C st dst src h) dst).bi_score i =
        (readLayout h src).bi_score i) ∧
    (∀ i, i < st.tri_end →
      (readLayout (copy_heap R C st dst src h) dst).tri_score i =
        (readLayout h src).tri_score i) ∧
    (∀ i, i < st.quad_end →
      (readLayout (copy_heap R C st dst src h) dst).quad_score i =
        (readLayout h src).quad_score i) ∧
    (∀ i, i < st.meta_end →
      (readLayout (copy_heap R C st dst src h) dst).meta_score i =
        (readLayout h src).meta_score i) ∧
    (∀ d j, 1 ≤ d → d ≤ 9 → j < st.skip_end →
      (readLayout (copy_heap R C st dst src h) dst).skip_score d j =
        (readLayout h src).skip_score d j) ∧
    (∀ r c v, sameLayoutView
      (writeCell (copy_heap R C st dst src h) src.self r c v)
      (copy_heap R C st dst src h) dst) ∧
    (∀ a, a ∈ arrayRefs src → ∀ i v, sameLayoutView
      (writeArr (copy_heap R C st dst src h) a i v)
      (copy_heap R C st dst src h) dst) := by
  have hnd2 := hnd
  simp only [arrayRefs, List.cons_append, List.nil_append,
    List.nodup_cons, List.mem_cons, List.mem_append, List.mem_map,
    List.mem_range, not_or, not_exists, not_and] at hnd2
  have md_mono : dst.monoRef ∈ arrayRefs dst := by simp [arrayRefs]
  have md_bi : dst.biRef ∈ arrayRefs dst := by simp [arrayRefs]
  have md_tri : dst.triRef ∈ arrayRefs dst := by simp [arrayRefs]
  have md_quad : dst.quadRef ∈ arrayRefs dst := by simp [arrayRefs]
  have md_meta : dst.metaRef ∈ arrayRefs dst := by simp [arrayRefs]
  have ms_mono : src.monoRef ∈ arrayRefs src := by simp [arrayRefs]
  have ms_bi : src.biRef ∈ arrayRefs src := by simp [arrayRefs]
  have ms_tri : src.triRef ∈ arrayRefs src := by simp [arrayRefs]
  have ms_quad : src.quadRef ∈ arrayRefs src := by simp [arrayRefs]
  have ms_meta : src.metaRef ∈ arrayRefs src := by simp [arrayRefs]
  have hsd_gen : ∀ b ∈ arrayRefs src, ∀ a ∈ arrayRefs dst, b ≠ a :=
    fun b hb a ha heq => hdisj a ha (heq ▸ hb)
  have ne_ms : ∀ d ∈ List.range 9, dst.monoRef ≠ dst.skipRef (d + 1) :=
    fun d hd heq => hnd2.1.2.2.2.2 d (List.mem_range.mp hd) heq.symm
  have ne_bs : ∀ d ∈ List.range 9, dst.biRef ≠ dst.skipRef (d + 1) :=
    fun d hd heq => hnd2.2.1.2.2.2 d (List.mem_range.mp hd) heq.symm
  have ne_ts : ∀ d ∈ List.range 9, dst.triRef ≠ dst.skipRef (d + 1) :=
    fun d hd heq => hnd2.2.2.1.2.2 d (List.mem_range.mp hd) heq.symm
  have ne_qs : ∀ d ∈ List.range 9, dst.quadRef ≠ dst.skipRef (d + 1) :=
    fun d hd heq => hnd2.2.2.2.1.2 d (List.mem_range.mp hd) heq.symm
  have ne_mes : ∀ d ∈ List.range 9, dst.metaRef ≠ dst.skipRef (d + 1) :=
    fun d hd heq => hnd2.2.2.2.2.1 d (List.mem_range.mp hd) heq.symm
  have hmapnd : ((List.range 9).map
      (fun d => dst.skipRef (d + 1))).Nodup := hnd2.2.2.2.2.2
  have hsd_skip : ∀ d1 ∈ List.range 9, ∀ d2 ∈ List.range 9,
      src.skipRef (d1 + 1) ≠ dst.skipRef (d2 + 1) := by
    intro d1 h1 d2 h2
    rw [List.mem_range] at h1 h2
    exact hsd_gen _ (mem_arrayRefs_skip src (d1 + 1) (by omega) (by omega))
      _ (mem_arrayRefs_skip dst (d2 + 1) (by omega) (by omega))
  refine ⟨copy_heap_name R C st dst src h, ?_,
    copy_heap_score R C st dst src h, ?_, ?_, ?_, ?_, ?_, ?_, ?_, ?_⟩
  · intro r c hr hc
    exact copy_heap_matrix R C st dst src h hself r c hr hc
  · intro i hi
    exact copy_heap_mono_val R C st dst src h hnd2.1.1 hnd2.1.2.1
      hnd2.1.2.2.1 hnd2.1.2.2.2.1 ne_ms
      (hsd_gen _ ms_mono _ md_mono) i hi
  · intro i hi
    exact copy_heap_bi_val R C st dst src h hnd2.2.1.1 hnd2.2.1.2.1
      hnd2.2.1.2.2.1 ne_bs (hsd_gen _ ms_bi _ md_bi)
      (hsd_gen _ ms_bi _ md_mono) i hi
  · intro i hi
    exact copy_heap_tri_val R C st dst src h hnd2.2.2.1.1
      hnd2.2.2.1.2.1 ne_ts (hsd_gen _ ms_tri _ md_tri)
      (hsd_gen _ ms_tri _ md_mono) (hsd_gen _ ms_tri _ md_bi) i hi
  · intro i hi
    exact copy_heap_quad_val R C st dst src h hnd2.2.2.2.1.1 ne_qs
      (hsd_gen _ ms_quad _ md_quad) (hsd_gen _ ms_quad _ md_mono)
      (hsd_gen _ ms_quad _ md_bi) (hsd_gen _ ms_quad _ md_tri) i hi
  · intro i hi
    exact copy_heap_meta_val R C st dst src h ne_mes
      (hsd_gen _ ms_meta _ md_meta) (hsd_gen _ ms_meta _ md_mono)
      (hsd_gen _ ms_meta _ md_bi) (hsd_gen _ ms_meta _ md_tri)
      (hsd_gen _ ms_meta _ md_quad) i hi
  · intro d j hd1 hd9 hj
    have msk : src.skipRef d ∈ arrayRefs src :=
      mem_arrayRefs_skip src d hd1 hd9
    exact copy_heap_skip_val R C st dst src h hmapnd hsd_skip d hd1 hd9
      (hsd_gen _ msk _ md_mono) (hsd_gen _ msk _ md_bi)
      (hsd_gen _ msk _ md_tri) (hsd_gen _ msk _ md_quad)
      (hsd_gen _ msk _ md_meta) j hj
  · intro r c v
    refine ⟨?_, ?_, ?_, fun i => rfl, fun i => rfl, fun i => rfl,
      fun i => rfl, fun i => rfl, fun d j hd1 hd9 => rfl⟩ <;>
      rw [writeCell_structs_ne _ _ _ _ _ _ hself]
  · intro a ha i v
    have hbne : ∀ b ∈ arrayRefs dst, b ≠ a :=
      fun b hb heq => hdisj b hb (heq ▸ ha)
    refine ⟨rfl, rfl, rfl, ?_, ?_, ?_, ?_, ?_, ?_⟩
    · exact fun j => writeArr_arrays_ne _ _ _ _ _ (hbne _ md_mono) j
    · exact fun j => writeArr_arrays_ne _ _ _ _ _ (hbne _ md_bi) j
    · exact fun j => writeArr_arrays_ne _ _ _ _ _ (hbne _ md_tri) j
    · exact fun j => writeArr_arrays_ne _ _ _ _ _ (hbne _ md_quad) j
    · exact fun j => writeArr_arrays_ne _ _ _ _ _ (hbne _ md_meta) j
    · intro d j hd1 hd9
      exact writeArr_arrays_ne _ _ _ _ _
        (hbne _ (mem_arrayRefs_skip dst d hd1 hd9)) j

/-- Concrete separately allocated destination addresses. -/
def dstRefs0 : LayoutRefs := ⟨0, 1, 2, 3, 4, 5, fun d => 10 + d⟩

/-- Concrete separately allocated source addresses. -/
def srcRefs0 : LayoutRefs := ⟨100, 101, 102, 103, 104, 105, fun d => 110 + d⟩

/-- A concrete heap: every struct empty, every array zero. -/
def heap0 : Heap := ⟨fun _ => ⟨[], fun _ _ => 0, 0⟩, fun _ _ => 0⟩

/-- C6 witness: the separate-allocation hypotheses hold at the concrete
addresses and the copy law follows there. -/
theorem C6_copy_is_deep_and_unshared_witness :
    dstRefs0.self ≠ srcRefs0.self ∧
    (readLayout (copy_heap 1 1 statsMetaOnly dstRefs0 srcRefs0 heap0)
        dstRefs0).name = (readLayout heap0 srcRefs0).name :=
  ⟨by decide,
    (C6_copy_is_deep_and_unshared 1 1 statsMetaOnly dstRefs0 srcRefs0
      heap0 (by decide) (by decide) (by decide)).1⟩

end Gulag
